import Mathlib

/-!
# Verification of the `monetary-bourse` trading engine

A shallow embedding of the pricing/regulation engine and the order-settlement
scheduler of `src/index.ts` (the claims all reference the second, current
revision of the file, starting at its line 1247).

Modelling conventions:
* JavaScript numbers that hold monetary quantities are modelled as `ℚ`;
  `Number(x.toFixed(2))` is modelled as `round2` (round to the nearest
  multiple of 1/100, ties up, matching the idealized decimal semantics the
  code relies on).
* Timestamps (`Date`) are modelled as `ℚ` milliseconds; Date comparison is
  the numeric order.
* `Math.tanh` is transcendental, so the soft-landing step of `updatePrice`
  takes the tanh function as an explicit parameter `tanh : ℚ → ℚ`; every
  theorem below holds for an arbitrary such parameter, hence in particular
  for the real tanh.
* The 25 K-line shape functions use `Math.sin`/`Math.PI`/`Math.floor` and are
  modelled over `ℝ` with `Real.sin`, `Real.pi`, `Int.floor`; the JavaScript
  remainder `x % 1` (for `x ≥ 0`) is `Int.fract`.
* Database tables are modelled as lists / finite maps:
  `bourse_pending` as a `List PendingOrder`, `bourse_holding` as a function
  `String → Option HoldingRec`, the `monetary` cash table as
  `ℕ → Option ℚ` (keyed by numeric uid, single currency), and the bank's
  demand records (`monetary_bank_int`, `type = demand`) as a list kept in
  `settlementDate` order, which is the order the FIFO deduction visits them.
* The uid-validity guards of the balance helpers reject only
  `undefined`/`null`/non-number/`NaN` (`uid = 0` is explicitly valid), none
  of which a `uid : ℕ` can be, so those guards always pass in this model.
  A `bourse_pending` row's uid, however, can be missing on legacy rows, so
  `PendingOrder.uid` is an `Option ℕ` and the settlement loop's own
  validity check is the `Option` match.
-/

/-- `Number(x.toFixed(2))`: round to two decimal places. -/
def round2 (x : ℚ) : ℚ := (round (x * 100) : ℤ) / 100

theorem round2_sub_le (x : ℚ) : round2 x - x ≤ 1 / 200 := by
  have h := abs_sub_round (x * 100)
  rw [abs_sub_le_iff] at h
  have h1 := h.1
  unfold round2
  linarith

theorem sub_round2_le (x : ℚ) : x - round2 x ≤ 1 / 200 := by
  have h := abs_sub_round (x * 100)
  rw [abs_sub_le_iff] at h
  have h2 := h.2
  unfold round2
  linarith

/-! ## Freeze-time computation (`stock.buy` lines 2377–2386, `stock.sell`
lines 2514–2523; identical blocks in both commands). -/

/-- The plugin configuration fields the engine core reads. -/
structure BourseConfig where
  initialPrice : ℚ
  freezeCostPerMinute : ℚ
  minFreezeTime : ℚ
  maxFreezeTime : ℚ

/-- Freeze duration in minutes for a trade of total value `cost`:
`maxFreezeTime = 0` means no freeze; otherwise `cost / freezeCostPerMinute`
capped at `maxFreezeTime` first and then floored at `minFreezeTime`. -/
def freezeMinutes (cfg : BourseConfig) (cost : ℚ) : ℚ :=
  if 0 < cfg.maxFreezeTime then
    let raw := cost / cfg.freezeCostPerMinute
    let capped := if cfg.maxFreezeTime < raw then cfg.maxFreezeTime else raw
    if capped < cfg.minFreezeTime then cfg.minFreezeTime else capped
  else 0

/-- C7: for every placed order, the freeze duration equals
`clamp(notional / freezeCostPerMinute, [minFreezeTime, maxFreezeTime])`
when the configured maximum is positive, and is `0` when the configured
maximum is `0` (immediate settlement path). -/
theorem freezeMinutes_clamp (cfg : BourseConfig) (cost : ℚ) :
    (0 < cfg.maxFreezeTime →
      freezeMinutes cfg cost =
        max cfg.minFreezeTime
          (min cfg.maxFreezeTime (cost / cfg.freezeCostPerMinute))) ∧
    (cfg.maxFreezeTime = 0 → freezeMinutes cfg cost = 0) := by
  constructor
  · intro hpos
    simp only [freezeMinutes, if_pos hpos]
    split_ifs with h1 h2 h3
    · rw [min_eq_left h1.le, max_eq_left h2.le]
    · rw [min_eq_left h1.le, max_eq_right (not_lt.mp h2)]
    · rw [min_eq_right (not_lt.mp h1), max_eq_left h3.le]
    · rw [min_eq_right (not_lt.mp h1), max_eq_right (not_lt.mp h3)]
  · intro hz
    simp only [freezeMinutes, hz, lt_irrefl, if_false]

/-- Witness for `freezeMinutes_clamp`: with `minFreezeTime = 10`,
`maxFreezeTime = 1440`, `freezeCostPerMinute = 100` (the defaults) and a
12000-credit order the freeze is 120 minutes; with `maxFreezeTime = 0` it
is zero. -/
theorem freezeMinutes_clamp_witness :
    freezeMinutes ⟨1200, 100, 10, 1440⟩ 12000 = 120 ∧
    freezeMinutes ⟨1200, 100, 10, 0⟩ 12000 = 0 := by
  constructor
  · have h := (freezeMinutes_clamp ⟨1200, 100, 10, 1440⟩ 12000).1 (by norm_num)
    rw [h]; norm_num
  · exact (freezeMinutes_clamp ⟨1200, 100, 10, 0⟩ 12000).2 rfl

/-! ## Price limits and the clamp step of `updatePrice` (lines 2157–2182).

`basePrice` is the macro cycle's start price (`state.startPrice`),
`dailyOpen` the snapshot taken at the closed→open transition
(`dailyOpenPrice`, `null` until the first open event, in which case the
code falls back to `basePrice`). -/

/-- `upperLimit = min(weekUpper, dayUpper)` with `weekUpper = basePrice*1.5`
and `dayUpper = dayBase*1.3`. -/
def upperLimit (basePrice dayBase : ℚ) : ℚ :=
  min (basePrice * 1.5) (dayBase * 1.3)

/-- `lowerLimit = max(weekLower, dayLower)` with `weekLower = basePrice*0.5`
and `dayLower = dayBase*0.7`. -/
def lowerLimit (basePrice dayBase : ℚ) : ℚ :=
  max (basePrice * 0.5) (dayBase * 0.7)

/-- The clamp-and-record tail of `updatePrice`: soft landing within 5% of
either bound through `tanh`, hard clamp to `[lowerLimit, upperLimit]`,
absolute floor of 1, and rounding of the stored price to 2 decimals.
`raw` is `currentPrice * (1 + totalReturn)` for the (arbitrary) composed
return of the tick. -/
def clampAndRecord (tanh : ℚ → ℚ) (basePrice : ℚ) (dailyOpen : Option ℚ)
    (raw : ℚ) : ℚ :=
  let dayBase := dailyOpen.getD basePrice
  let up := upperLimit basePrice dayBase
  let lo := lowerLimit basePrice dayBase
  let p1 :=
    if up * 0.95 < raw then
      up * 0.95 + up * 0.05 * tanh ((raw - up * 0.95) / (up * 0.05))
    else raw
  let p2 :=
    if p1 < lo * 1.05 then
      lo * 1.05 - lo * 0.05 * tanh ((lo * 1.05 - p1) / (lo * 0.05))
    else p1
  let p3 := max lo (min up p2)
  let p4 := if p3 < 1 then 1 else p3
  round2 p4

/-- C1, counterexample: the claim that the recorded price always satisfies
`lowerLimit ≤ price ≤ upperLimit` is false.  With `initialPrice = 0.5`
(the schema allows any price ≥ 0.01), on the first tick the auto cycle has
`startPrice = 0.5`, `dailyOpenPrice` is still unset, and a composed return
of 0 leaves the raw price at 0.5; the absolute floor `if (newPrice < 1)
newPrice = 1` then records price 1, strictly above
`upperLimit = min(0.75, 0.65) = 0.65`.  (The tanh parameter is irrelevant
here: neither soft-landing branch fires.) -/
theorem clampAndRecord_escapes_upperLimit :
    clampAndRecord (fun _ => 0) (1/2) none (1/2) = 1 ∧
    upperLimit (1/2) (1/2) = 13/20 ∧
    ¬ clampAndRecord (fun _ => 0) (1/2) none (1/2) ≤ upperLimit (1/2) (1/2) := by
  have hval : clampAndRecord (fun _ => 0) (1/2) none (1/2) = 1 := by
    simp only [clampAndRecord, upperLimit, lowerLimit, Option.getD]
    norm_num [min_def, max_def, round2, round_eq]
  have hup : upperLimit (1/2) (1/2) = 13/20 := by
    norm_num [upperLimit, min_def]
  exact ⟨hval, hup, by rw [hval, hup]; norm_num⟩

/-- The hard clamp, absolute floor and 2-decimal rounding keep the stored
value in the half-cent-widened band, for any input `p2`, whenever the band
is nonempty and its upper end is at least 1. -/
theorem round2_clamp_floor_bounds (lo up p2 : ℚ) (hle : lo ≤ up)
    (hone : 1 ≤ up) :
    lo - 1/200 ≤ round2 (if max lo (min up p2) < 1 then 1
      else max lo (min up p2)) ∧
    round2 (if max lo (min up p2) < 1 then 1
      else max lo (min up p2)) ≤ up + 1/200 := by
  have h3lo : lo ≤ max lo (min up p2) := le_max_left _ _
  have h3up : max lo (min up p2) ≤ up := max_le hle (min_le_left _ _)
  set p3 := max lo (min up p2) with hp3
  have h4lo : lo ≤ (if p3 < 1 then 1 else p3) := by
    split_ifs with h
    · linarith
    · exact h3lo
  have h4up : (if p3 < 1 then 1 else p3) ≤ up := by
    split_ifs with h
    · exact hone
    · exact h3up
  set p4 := (if p3 < 1 then 1 else p3) with hp4
  have hr1 := round2_sub_le p4
  have hr2 := sub_round2_le p4
  exact ⟨by linarith, by linarith⟩

/-- C1, amended: for every tick and any composed return, the value after
the hard clamp lies in `[lowerLimit, upperLimit]` whenever
`lowerLimit ≤ upperLimit`; if moreover `1 ≤ upperLimit` (so the absolute
price floor cannot override the band) the recorded price lies within the
band up to the half-cent the 2-decimal rounding can move it. -/
theorem clampAndRecord_bounds (tanh : ℚ → ℚ) (basePrice : ℚ)
    (dailyOpen : Option ℚ) (raw : ℚ)
    (hle : lowerLimit basePrice (dailyOpen.getD basePrice) ≤
      upperLimit basePrice (dailyOpen.getD basePrice))
    (hone : 1 ≤ upperLimit basePrice (dailyOpen.getD basePrice)) :
    lowerLimit basePrice (dailyOpen.getD basePrice) - 1/200 ≤
      clampAndRecord tanh basePrice dailyOpen raw ∧
    clampAndRecord tanh basePrice dailyOpen raw ≤
      upperLimit basePrice (dailyOpen.getD basePrice) + 1/200 := by
  simp only [clampAndRecord]
  exact round2_clamp_floor_bounds _ _ _ hle hone

/-- Witness for `clampAndRecord_bounds`: with `basePrice = 10`, no daily
open price yet and a raw tick price of 10, the hypotheses hold and the
recorded price 10 lies within the widened band `[6.995, 13.005]`. -/
theorem clampAndRecord_bounds_witness :
    lowerLimit 10 ((none : Option ℚ).getD 10) ≤
      upperLimit 10 ((none : Option ℚ).getD 10) ∧
    (1 : ℚ) ≤ upperLimit 10 ((none : Option ℚ).getD 10) ∧
    lowerLimit 10 ((none : Option ℚ).getD 10) - 1/200 ≤
      clampAndRecord (fun _ => 0) 10 none 10 ∧
    clampAndRecord (fun _ => 0) 10 none 10 ≤
      upperLimit 10 ((none : Option ℚ).getD 10) + 1/200 := by
  have h1 : lowerLimit 10 ((none : Option ℚ).getD 10) ≤
      upperLimit 10 ((none : Option ℚ).getD 10) := by
    norm_num [lowerLimit, upperLimit, min_def, max_def]
  have h2 : (1 : ℚ) ≤ upperLimit 10 ((none : Option ℚ).getD 10) := by
    norm_num [upperLimit, min_def]
  exact ⟨h1, h2, (clampAndRecord_bounds (fun _ => 0) 10 none 10 h1 h2).1,
    (clampAndRecord_bounds (fun _ => 0) 10 none 10 h1 h2).2⟩

/-! ## Macro regulation state (`bourse_state`, key `macro_state`).

Timestamps are `ℚ` milliseconds.  The legacy-null normalization of
`updatePrice` lines 2030–2036 (re-deriving missing `lastCycleStart` /
`endTime`) is not modelled: the schema stores both timestamps and every
writer below sets them. -/

inductive MacroMode where
  | auto
  | manual
deriving DecidableEq

structure MacroState where
  lastCycleStart : ℚ
  startPrice : ℚ
  targetPrice : ℚ
  trendFactor : ℚ
  mode : MacroMode
  endTime : ℚ
deriving DecidableEq

/-- `createAutoState` (`updatePrice` lines 2047–2073): a fresh one-week
auto cycle from the current price.  `rand` is the `Math.random()` draw in
`[0,1)`; the target ratio is `1 + (rand*2 - 1) * 0.25` and the target is
clamped to `[0.5, 1.5] × currentPrice`. -/
def createAutoState (now currentPrice rand : ℚ) : MacroState :=
  let durationHours : ℚ := 7 * 24
  let fluctuation : ℚ := 0.25
  let targetRatio := 1 + (rand * 2 - 1) * fluctuation
  let targetPrice :=
    max (currentPrice * 0.5) (min (currentPrice * 1.5)
      (currentPrice * targetRatio))
  { lastCycleStart := now
    startPrice := currentPrice
    targetPrice := targetPrice
    trendFactor := 0
    mode := MacroMode.auto
    endTime := now + durationHours * 3600 * 1000 }

/-- The state-initialization/expiry check at the top of `updatePrice`
(lines 2038–2077): if no state is persisted, or `now > endTime`, the cycle
is replaced by `createAutoState` regardless of its mode. -/
def refreshMacroState (now currentPrice rand : ℚ)
    (state : Option MacroState) : MacroState :=
  match state with
  | none => createAutoState now currentPrice rand
  | some s => if s.endTime < now then createAutoState now currentPrice rand
      else s

/-- The target clamp of the `stock.control` admin command (lines
2671–2676): the requested price is clamped to the intersection of the
±50% bands around the current price and around the daily opening price
(`dailyOpenPrice ?? currentPrice`). -/
def controlTargetPrice (currentPrice : ℚ) (dailyOpen : Option ℚ)
    (price : ℚ) : ℚ :=
  let baseStart := currentPrice
  let dayBase := dailyOpen.getD baseStart
  let upper := min (baseStart * 1.5) (dayBase * 1.5)
  let lower := max (baseStart * 0.5) (dayBase * 0.5)
  max lower (min upper price)

/-- The full `stock.control` command (lines 2660–2703): rejects a
non-positive requested price, defaults the duration to 24 hours when the
`hours` argument is absent or `0` (JavaScript `hours || 24`), and starts a
fresh manual cycle. -/
def stockControl (now currentPrice : ℚ) (dailyOpen : Option ℚ)
    (price : ℚ) (hours : Option ℚ) : Option MacroState :=
  if price ≤ 0 then none
  else
    let duration := match hours with
      | none => 24
      | some h => if h = 0 then 24 else h
    let targetPriceClamped := controlTargetPrice currentPrice dailyOpen price
    let minutes := duration * 60
    some
      { lastCycleStart := now
        startPrice := currentPrice
        targetPrice := targetPriceClamped
        trendFactor := (targetPriceClamped - currentPrice) / minutes
        mode := MacroMode.manual
        endTime := now + duration * 3600 * 1000 }

/-- Modelled from the spec (§4.2 Admin override): the spec's formula for
the manual target, `clamp(price, [0.5, 1.5] × max(startPrice,
dailyOpenPrice))`, to be compared with `controlTargetPrice`. -/
def specManualTarget (currentPrice : ℚ) (dailyOpen : Option ℚ)
    (price : ℚ) : ℚ :=
  let base := max currentPrice (dailyOpen.getD currentPrice)
  max (base * 0.5) (min (base * 1.5) price)

/-- C2: every created macro cycle stores a target within `[0.5×, 1.5×]` of
the creation-time current price.  The auto path holds for an arbitrary
random draw.  The manual path needs `dayBase ≤ 3 × currentPrice`, which
the engine maintains: `dailyOpenPrice` is set to the then-current price at
each market-open transition and every later tick is clamped to at least
`0.7 × dailyOpenPrice` (minus at most a half-cent of rounding), so the
current price can never fall below a third of the daily open. -/
theorem createdCycle_targetPrice_in_band (now currentPrice rand : ℚ)
    (dailyOpen : Option ℚ) (price : ℚ)
    (hcp : 0 < currentPrice)
    (hday : ∀ d, dailyOpen = some d → d ≤ 3 * currentPrice) :
    (currentPrice * 0.5 ≤ (createAutoState now currentPrice rand).targetPrice ∧
      (createAutoState now currentPrice rand).targetPrice ≤
        currentPrice * 1.5) ∧
    (currentPrice * 0.5 ≤ controlTargetPrice currentPrice dailyOpen price ∧
      controlTargetPrice currentPrice dailyOpen price ≤
        currentPrice * 1.5) := by
  constructor
  · constructor
    · simp only [createAutoState]
      exact le_max_left _ _
    · simp only [createAutoState]
      exact max_le (by linarith) (min_le_left _ _)
  · have hd : Option.getD dailyOpen currentPrice ≤ 3 * currentPrice := by
      cases dailyOpen with
      | none => simp only [Option.getD]; linarith
      | some d => simpa using hday d rfl
    constructor
    · simp only [controlTargetPrice]
      exact le_trans (le_max_left _ _) (le_max_left _ _)
    · simp only [controlTargetPrice]
      have h1 : currentPrice * 0.5 ≤ currentPrice * 1.5 := by linarith
      have h2 : dailyOpen.getD currentPrice * 0.5 ≤ currentPrice * 1.5 := by
        linarith
      exact max_le (max_le h1 h2)
        (le_trans (min_le_left _ _) (min_le_left _ _))

/-- Witness for `createdCycle_targetPrice_in_band`: current price 1200, a
daily open of 1250 and a requested manual target of 5000. -/
theorem createdCycle_targetPrice_in_band_witness :
    ((1200 : ℚ) * 0.5 ≤ (createAutoState 0 1200 (9/10)).targetPrice ∧
      (createAutoState 0 1200 (9/10)).targetPrice ≤ 1200 * 1.5) ∧
    ((1200 : ℚ) * 0.5 ≤ controlTargetPrice 1200 (some 1250) 5000 ∧
      controlTargetPrice 1200 (some 1250) 5000 ≤ 1200 * 1.5) :=
  createdCycle_targetPrice_in_band 0 1200 (9/10) (some 1250) 5000
    (by norm_num) (by intro d hd; injection hd with h; rw [← h]; norm_num)

/-- C4: on a tick where the persisted macro state is absent or expired
(`now > endTime`), regardless of its previous mode, the engine replaces it
with a fresh auto cycle: `startPrice = currentPrice`,
`targetPrice = currentPrice × (1 + (rand*2−1)×0.25)` clamped to
`[0.5×, 1.5×]` of the current price, and `endTime = now + 168h`. -/
theorem refreshMacroState_expired (now currentPrice rand : ℚ)
    (state : Option MacroState)
    (hexp : state = none ∨ ∃ s, state = some s ∧ s.endTime < now) :
    refreshMacroState now currentPrice rand state =
      { lastCycleStart := now
        startPrice := currentPrice
        targetPrice := max (currentPrice * 0.5) (min (currentPrice * 1.5)
          (currentPrice * (1 + (rand * 2 - 1) * 0.25)))
        trendFactor := 0
        mode := MacroMode.auto
        endTime := now + 168 * 3600 * 1000 } := by
  have hgoal : refreshMacroState now currentPrice rand state =
      createAutoState now currentPrice rand := by
    rcases hexp with h | ⟨s, hs, hlt⟩
    · rw [h]; rfl
    · rw [hs]; simp only [refreshMacroState, if_pos hlt]
  rw [hgoal]
  simp only [createAutoState]
  norm_num

/-- Witness for `refreshMacroState_expired`: a manual cycle that ended at
time 1000 is replaced at `now = 2000` by the auto cycle described. -/
theorem refreshMacroState_expired_witness :
    refreshMacroState 2000 1200 (1/2)
        (some { lastCycleStart := 0, startPrice := 1100, targetPrice := 900,
                trendFactor := 0, mode := MacroMode.manual, endTime := 1000 }) =
      { lastCycleStart := 2000
        startPrice := 1200
        targetPrice := max ((1200 : ℚ) * 0.5) (min (1200 * 1.5)
          (1200 * (1 + ((1:ℚ)/2 * 2 - 1) * 0.25)))
        trendFactor := 0
        mode := MacroMode.auto
        endTime := 2000 + 168 * 3600 * 1000 } :=
  refreshMacroState_expired 2000 1200 (1/2) _
    (Or.inr ⟨_, rfl, by norm_num⟩)

/-- C5, counterexample: the spec's formula
`clamp(price, [0.5, 1.5] × max(startPrice, dailyOpenPrice))` does not match
the code.  With the price having drifted from a daily open of 1040 down to
1000, a requested target of 5000 is clamped by the code to
`min(1.5×1000, 1.5×1040) = 1500`, while the spec formula yields
`1.5 × max(1000, 1040) = 1560`. -/
theorem controlTargetPrice_ne_spec_formula :
    controlTargetPrice 1000 (some 1040) 5000 = 1500 ∧
    specManualTarget 1000 (some 1040) 5000 = 1560 ∧
    controlTargetPrice 1000 (some 1040) 5000 ≠
      specManualTarget 1000 (some 1040) 5000 := by
  have h1 : controlTargetPrice 1000 (some 1040) 5000 = 1500 := by
    simp only [controlTargetPrice, Option.getD]
    norm_num [min_def, max_def]
  have h2 : specManualTarget 1000 (some 1040) 5000 = 1560 := by
    simp only [specManualTarget, Option.getD]
    norm_num [min_def, max_def]
  exact ⟨h1, h2, by rw [h1, h2]; norm_num⟩

/-- C5, amended: the admin override clamps the requested price into
`[0.5 × max(startPrice, dailyOpen), 1.5 × min(startPrice, dailyOpen)]`
(the intersection of the two ±50% bands), not `[0.5, 1.5] ×
max(startPrice, dailyOpen)`; the quoted scenario still holds: on current
price 1200 with no differing daily open price, `stock.control 5000 12`
stores a manual cycle whose target is exactly 1800 and which ends 12 hours
later. -/
theorem stockControl_target_clamp (now currentPrice price : ℚ)
    (dailyOpen : Option ℚ) :
    controlTargetPrice currentPrice dailyOpen price =
      max (max currentPrice (dailyOpen.getD currentPrice) * 0.5)
        (min (min currentPrice (dailyOpen.getD currentPrice) * 1.5) price) ∧
    stockControl now 1200 none 5000 (some 12) =
      some { lastCycleStart := now
             startPrice := 1200
             targetPrice := 1800
             trendFactor := 5/6
             mode := MacroMode.manual
             endTime := now + 12 * 3600 * 1000 } := by
  constructor
  · simp only [controlTargetPrice]
    rw [max_mul_of_nonneg _ _ (by norm_num : (0:ℚ) ≤ 0.5),
      min_mul_of_nonneg _ _ (by norm_num : (0:ℚ) ≤ 1.5)]
  · have htgt : controlTargetPrice 1200 none 5000 = 1800 := by
      simp only [controlTargetPrice, Option.getD]
      norm_num [min_def, max_def]
    simp only [stockControl, if_neg (by norm_num : ¬ (5000 : ℚ) ≤ 0), htgt]
    norm_num

/-! ## Orders, holdings and balances.

`bourse_pending` rows (`autoInc` primary key `id`), `bourse_holding` rows
keyed by `userId` (single instrument `MAIN`), the `monetary` cash table
keyed by the numeric `uid`, and the bank's demand records in
`settlementDate` order. -/

inductive OrderType where
  | buy
  | sell
deriving DecidableEq

structure PendingOrder where
  id : ℕ
  userId : String
  uid : Option ℕ
  type : OrderType
  amount : ℚ
  price : ℚ
  cost : ℚ
  startTime : ℚ
  endTime : ℚ
deriving DecidableEq

structure HoldingRec where
  amount : ℚ
  totalCost : ℚ
deriving DecidableEq

structure BankRec where
  id : ℕ
  uid : ℕ
  amount : ℚ
deriving DecidableEq

structure EngineState where
  pending : List PendingOrder
  holdings : String → Option HoldingRec
  cash : ℕ → Option ℚ
  bank : List BankRec

/-- `getCashBalance` (lines 1487–1508): the uid guard rejects only
`undefined`/`null`/non-number/`NaN` (`uid = 0` is explicitly valid), so it
always passes for `uid : ℕ`; a missing record reads as 0. -/
def getCashBalance (uid : ℕ) (cash : ℕ → Option ℚ) : ℚ :=
  (cash uid).getD 0

/-- `changeCashBalance` (lines 1513–1555): the uid guard always passes for
`uid : ℕ` (`uid = 0` is explicitly valid); creates the record when missing
and the delta is non-negative; otherwise rounds the new balance to 2
decimals and refuses to drive it negative. -/
def changeCashBalance (uid : ℕ) (delta : ℚ) (cash : ℕ → Option ℚ) :
    Bool × (ℕ → Option ℚ) :=
  match cash uid with
  | none =>
    if delta < 0 then (false, cash)
    else (true, fun u => if u = uid then some delta else cash u)
  | some v =>
    let newValue := round2 (v + delta)
    if newValue < 0 then (false, cash)
    else (true, fun u => if u = uid then some newValue else cash u)

/-- `getBankDemandBalance` (lines 1560–1584): total of the user's demand
records; the uid guard always passes for `uid : ℕ`. -/
def getBankDemandBalance (uid : ℕ) (bank : List BankRec) : ℚ :=
  (bank.filter (fun r => r.uid = uid)).foldl (fun acc r => acc + r.amount) 0

/-- The FIFO loop of `deductBankDemand` (lines 1596–1616): visits the
user's demand records in `settlementDate` order, removing records that are
fully consumed and shrinking the first record that is not; non-matching
records are untouched.  Returns the remaining amount and the new list. -/
def deductDemandGo (uid : ℕ) : ℚ → List BankRec → ℚ × List BankRec
  | remaining, [] => (remaining, [])
  | remaining, r :: rest =>
    if r.uid ≠ uid then
      let out := deductDemandGo uid remaining rest
      (out.1, r :: out.2)
    else if remaining ≤ 0 then (remaining, r :: rest)
    else if r.amount ≤ remaining then
      deductDemandGo uid (round2 (remaining - r.amount)) rest
    else (0, { r with amount := round2 (r.amount - remaining) } :: rest)

/-- `deductBankDemand` (lines 1589–1624): fails outright for a
non-positive amount (the uid guard always passes for `uid : ℕ`); otherwise
runs the FIFO loop and succeeds iff nothing remains. -/
def deductBankDemand (uid : ℕ) (amount : ℚ) (bank : List BankRec) :
    Bool × List BankRec :=
  if amount ≤ 0 then (false, bank)
  else
    let out := deductDemandGo uid (round2 amount) bank
    (out.1 == 0, out.2)

/-- `pay` (lines 1629–1668): check total funds, deduct cash first, then
the bank demand account, rolling the cash leg back if the bank leg
fails. -/
def pay (uid : ℕ) (cost : ℚ) (st : EngineState) : Bool × EngineState :=
  let cash := getCashBalance uid st.cash
  let bankDemand := getBankDemandBalance uid st.bank
  if cash + bankDemand < cost then (false, st)
  else
    let remainingCost := round2 cost
    let cashDeduct := round2 (min cash remainingCost)
    if 0 < cashDeduct then
      match changeCashBalance uid (-cashDeduct) st.cash with
      | (false, cash1) => (false, { st with cash := cash1 })
      | (true, cash1) =>
        let remaining1 := round2 (remainingCost - cashDeduct)
        if 0 < remaining1 then
          match deductBankDemand uid remaining1 st.bank with
          | (true, bank1) => (true, { st with cash := cash1, bank := bank1 })
          | (false, bank1) =>
            let cash2 := (changeCashBalance uid cashDeduct cash1).2
            (false, { st with cash := cash2, bank := bank1 })
        else (true, { st with cash := cash1 })
    else
      if 0 < remainingCost then
        match deductBankDemand uid remainingCost st.bank with
        | (true, bank1) => (true, { st with bank := bank1 })
        | (false, bank1) => (false, { st with bank := bank1 })
      else (true, st)

/-! ## Settlement (`processPendingTransactions`, lines 2187–2234). -/

/-- Point update of the `bourse_holding` table keyed by `userId`
(`none` = row removed). -/
def setHolding (userId : String) (v : Option HoldingRec)
    (m : String → Option HoldingRec) : String → Option HoldingRec :=
  fun u => if u = userId then v else m u

/-- The loop body of `processPendingTransactions` for one matured order.
A buy credits the holding (estimating a missing legacy cost basis from the
order's recorded unit price); a sell checks that the stored uid is a valid
number (the `Option` match — a missing uid is only logged, lines
2221–2230) and then credits cash through `changeCashBalance`, whose
failure is also only logged.  The deletion of the row happens in
`processPendingTransactions` below in either case.
Updating/creating/removing a `bourse_holding` row keyed by `userId` is the
point update `setHolding`. -/
def settleTxn (st : EngineState) (txn : PendingOrder) : EngineState :=
  match txn.type with
  | OrderType.buy =>
    match st.holdings txn.userId with
    | none =>
      let v : HoldingRec := { amount := txn.amount, totalCost := round2 txn.cost }
      { st with holdings := setHolding txn.userId (some v) st.holdings }
    | some h =>
      let existingCost :=
        if h.totalCost ≤ 0 then round2 (h.amount * txn.price) else h.totalCost
      let v : HoldingRec :=
        { amount := h.amount + txn.amount
          totalCost := round2 (existingCost + txn.cost) }
      { st with holdings := setHolding txn.userId (some v) st.holdings }
  | OrderType.sell =>
    match txn.uid with
    | some u =>
      let amount := round2 txn.cost
      let out := changeCashBalance u amount st.cash
      { st with cash := out.2 }
    | none => st

/-- `processPendingTransactions`: fetch every pending order with
`endTime ≤ now`, settle each in order, and delete each settled row by its
primary key.  Since `id` is an auto-increment primary key and settlement
never writes `bourse_pending`, the loop denotes: fold the settlements over
the matured rows, then drop exactly the matured rows. -/
def processPendingTransactions (now : ℚ) (st : EngineState) : EngineState :=
  let matured := st.pending.filter (fun t => t.endTime ≤ now)
  let st1 := matured.foldl settleTxn st
  { st1 with pending := st.pending.filter (fun t => ¬ t.endTime ≤ now) }

/-- A state holding no matured order is a fixed point of
`processPendingTransactions`. -/
theorem processPending_no_matured (now : ℚ) (st : EngineState)
    (h : ∀ t ∈ st.pending, ¬ t.endTime ≤ now) :
    processPendingTransactions now st = st := by
  have h1 : st.pending.filter (fun t => t.endTime ≤ now) = [] :=
    List.filter_eq_nil_iff.mpr (by simpa using h)
  have h2 : st.pending.filter (fun t => ¬ t.endTime ≤ now) = st.pending :=
    List.filter_eq_self.mpr (by simpa using h)
  simp only [processPendingTransactions, h1, h2, List.foldl_nil]

/-- C3: settlement is idempotent.  After a `processPendingTransactions`
run no order with `endTime ≤ now` is left pending (each matured order was
settled exactly once, by the single fold pass, and deleted), so running it
again with no new orders and no clock advance changes nothing. -/
theorem processPendingTransactions_idempotent (now : ℚ) (st : EngineState) :
    (∀ t ∈ (processPendingTransactions now st).pending, ¬ t.endTime ≤ now) ∧
    processPendingTransactions now (processPendingTransactions now st) =
      processPendingTransactions now st := by
  have hnone : ∀ t ∈ (processPendingTransactions now st).pending,
      ¬ t.endTime ≤ now := by
    intro t ht
    simp only [processPendingTransactions, List.mem_filter,
      decide_eq_true_eq] at ht
    exact ht.2
  exact ⟨hnone, processPending_no_matured now _ hnone⟩

/-- Failure of `changeCashBalance` leaves the cash table untouched. -/
theorem changeCashBalance_fail_eq (uid : ℕ) (delta : ℚ)
    (cash : ℕ → Option ℚ)
    (h : (changeCashBalance uid delta cash).1 = false) :
    (changeCashBalance uid delta cash).2 = cash := by
  rcases hc : cash uid with _ | v
  · unfold changeCashBalance at h ⊢
    rw [hc] at h ⊢
    replace h : (if delta < 0 then ((false : Bool), cash)
      else ((true : Bool),
        fun u => if u = uid then some delta else cash u)).1 = false := h
    show (if delta < 0 then ((false : Bool), cash)
      else ((true : Bool),
        fun u => if u = uid then some delta else cash u)).2 = cash
    split_ifs at h ⊢ with hd
    · rfl
  · unfold changeCashBalance at h ⊢
    rw [hc] at h ⊢
    replace h : (if round2 (v + delta) < 0 then ((false : Bool), cash)
      else ((true : Bool),
        fun u => if u = uid then some (round2 (v + delta)) else cash u)).1
          = false := h
    show (if round2 (v + delta) < 0 then ((false : Bool), cash)
      else ((true : Bool),
        fun u => if u = uid then some (round2 (v + delta)) else cash u)).2
          = cash
    split_ifs at h ⊢ with hd
    · rfl

/-- C10: when a matured sell order's settlement cannot credit the
proceeds — the stored uid is missing (a legacy row, which the loop's
validity check only logs) or `changeCashBalance` returns `false` — the
pending order is deleted anyway: no cash is credited, no holding is
touched, nothing is rolled back, and the order can never be retried. -/
theorem sellCreditFailure_order_still_deleted (now : ℚ) (st : EngineState)
    (txn : PendingOrder)
    (hm : st.pending.filter (fun t => t.endTime ≤ now) = [txn])
    (hsell : txn.type = OrderType.sell)
    (hfail : ∀ u, txn.uid = some u →
      (changeCashBalance u (round2 txn.cost) st.cash).1 = false) :
    (processPendingTransactions now st).cash = st.cash ∧
    (processPendingTransactions now st).holdings = st.holdings ∧
    (processPendingTransactions now st).pending =
      st.pending.filter (fun t => ¬ t.endTime ≤ now) ∧
    txn ∉ (processPendingTransactions now st).pending := by
  have hsettle : settleTxn st txn = st := by
    cases hu : txn.uid with
    | none => simp only [settleTxn, hsell, hu]
    | some u =>
      have hc := changeCashBalance_fail_eq u (round2 txn.cost) st.cash
        (hfail u hu)
      simp only [settleTxn, hsell, hu, hc]
  have hmem : txn ∈ st.pending.filter (fun t => t.endTime ≤ now) := by
    rw [hm]; exact List.mem_singleton_self txn
  have hmat : txn.endTime ≤ now := by
    have := (List.mem_filter.mp hmem).2
    simpa using this
  refine ⟨?_, ?_, ?_, ?_⟩
  · simp only [processPendingTransactions, hm, List.foldl_cons,
      List.foldl_nil, hsettle]
  · simp only [processPendingTransactions, hm, List.foldl_cons,
      List.foldl_nil, hsettle]
  · simp only [processPendingTransactions, hm, List.foldl_cons,
      List.foldl_nil, hsettle]
  · intro hcontra
    simp only [processPendingTransactions, hm, List.foldl_cons,
      List.foldl_nil, hsettle, List.mem_filter, decide_eq_true_eq] at hcontra
    exact hcontra.2 hmat

/-- Witness for `sellCreditFailure_order_still_deleted`: a single matured
sell order for 12000 credits on a legacy row missing its uid (the loop
logs the missing uid and deletes the order; no cash moves). -/
theorem sellCreditFailure_order_still_deleted_witness :
    (processPendingTransactions 100
        ⟨[⟨1, "alice", none, OrderType.sell, 10, 1200, 12000, 0, 100⟩],
          fun _ => none, fun _ => none, []⟩).cash = (fun _ => none) ∧
    (processPendingTransactions 100
        ⟨[⟨1, "alice", none, OrderType.sell, 10, 1200, 12000, 0, 100⟩],
          fun _ => none, fun _ => none, []⟩).holdings = (fun _ => none) ∧
    (processPendingTransactions 100
        ⟨[⟨1, "alice", none, OrderType.sell, 10, 1200, 12000, 0, 100⟩],
          fun _ => none, fun _ => none, []⟩).pending =
      List.filter (fun t => ¬ t.endTime ≤ 100)
        [⟨1, "alice", none, OrderType.sell, 10, 1200, 12000, 0, 100⟩] ∧
    (⟨1, "alice", none, OrderType.sell, 10, 1200, 12000, 0, 100⟩ :
        PendingOrder) ∉
      (processPendingTransactions 100
        ⟨[⟨1, "alice", none, OrderType.sell, 10, 1200, 12000, 0, 100⟩],
          fun _ => none, fun _ => none, []⟩).pending :=
  sellCreditFailure_order_still_deleted 100
    ⟨[⟨1, "alice", none, OrderType.sell, 10, 1200, 12000, 0, 100⟩],
      fun _ => none, fun _ => none, []⟩
    ⟨1, "alice", none, OrderType.sell, 10, 1200, 12000, 0, 100⟩
    (by norm_num [List.filter]) rfl
    (fun u hu => Option.noConfusion hu)

/-! ## Same-side order serialization (`stock.buy` lines 2388–2397,
`stock.sell` lines 2525–2534). -/

/-- The endTime of the account's most recent pending order of the given
side: the database query `get(bourse_pending, { userId, type }, sort
endTime desc, limit 1)` returns the row with the maximal `endTime`
(`none` when the account has no pending order of that side). -/
def lastSameSideEnd (userId : String) (ty : OrderType)
    (l : List PendingOrder) : Option ℚ :=
  (l.filter (fun t => t.userId = userId ∧ t.type = ty)).foldl
    (fun acc t =>
      match acc with
      | none => some t.endTime
      | some e => some (max e t.endTime)) none

/-- The serialization rule: if the most recent same-side order ends in the
future, the new order starts at that `endTime`; otherwise it starts
now. -/
def newStartTime (now : ℚ) (lastEnd : Option ℚ) : ℚ :=
  match lastEnd with
  | none => now
  | some e => if now < e then e else now

/-- Appending the new pending order created by `stock.buy` / `stock.sell`:
`startTime` by the serialization rule, `endTime = startTime + freezeMs`. -/
def placeOrder (id : ℕ) (userId : String) (uid : Option ℕ) (ty : OrderType)
    (amount price cost freezeMs now : ℚ) (l : List PendingOrder) :
    List PendingOrder :=
  let s := newStartTime now (lastSameSideEnd userId ty l)
  l ++ [{ id := id, userId := userId, uid := uid, type := ty
          amount := amount, price := price, cost := cost
          startTime := s, endTime := s + freezeMs }]

/-- The half-open windows `[startTime, endTime)` of two orders are
disjoint. -/
def windowsDisjoint (a b : PendingOrder) : Prop :=
  min a.endTime b.endTime ≤ max a.startTime b.startTime

/-- No two distinct same-account same-side pending orders have overlapping
`[startTime, endTime)` windows. -/
def sameSideSerialized (l : List PendingOrder) : Prop :=
  l.Pairwise (fun a b => a.userId = b.userId → a.type = b.type →
    windowsDisjoint a b)

/-- The pending-order lists the scheduler can produce: starting empty,
orders are appended by `placeOrder` (with the non-negative freeze duration
computed by `freezeMinutes`) and matured orders are removed by
`processPendingTransactions`. -/
inductive QueueReachable : List PendingOrder → Prop
  | init : QueueReachable []
  | place (id : ℕ) (userId : String) (uid : Option ℕ) (ty : OrderType)
      (amount price cost freezeMs now : ℚ) (hf : 0 ≤ freezeMs)
      {l : List PendingOrder} : QueueReachable l →
      QueueReachable (placeOrder id userId uid ty amount price cost freezeMs now l)
  | settle (now : ℚ) {l : List PendingOrder} : QueueReachable l →
      QueueReachable (l.filter (fun t => ¬ t.endTime ≤ now))

theorem lastSameSideEnd_aux_le (l : List PendingOrder) :
    ∀ (e : ℚ), ∃ m, (l.foldl (fun acc t =>
      match acc with
      | none => some t.endTime
      | some e => some (max e t.endTime)) (some e)) = some m ∧ e ≤ m := by
  induction l with
  | nil => intro e; exact ⟨e, rfl, le_refl e⟩
  | cons t rest ih =>
    intro e
    obtain ⟨m, hm, hle⟩ := ih (max e t.endTime)
    exact ⟨m, hm, le_trans (le_max_left _ _) hle⟩

theorem lastSameSideEnd_mem_le (l : List PendingOrder) :
    ∀ (acc : Option ℚ) (t : PendingOrder), t ∈ l →
      ∃ m, (l.foldl (fun acc t =>
        match acc with
        | none => some t.endTime
        | some e => some (max e t.endTime)) acc) = some m ∧ t.endTime ≤ m := by
  induction l with
  | nil => intro acc t ht; cases ht
  | cons s rest ih =>
    intro acc t ht
    rcases List.mem_cons.mp ht with rfl | hmem
    · cases acc with
      | none =>
        simp only [List.foldl_cons]
        obtain ⟨m, hm, hle⟩ := lastSameSideEnd_aux_le rest t.endTime
        exact ⟨m, hm, hle⟩
      | some e =>
        simp only [List.foldl_cons]
        obtain ⟨m, hm, hle⟩ := lastSameSideEnd_aux_le rest (max e t.endTime)
        exact ⟨m, hm, le_trans (le_max_right _ _) hle⟩
    · exact ih _ t hmem

/-- Every same-side pending order of the account ends no later than the
start of a newly placed order. -/
theorem endTime_le_newStartTime (userId : String) (ty : OrderType)
    (l : List PendingOrder) (now : ℚ) (t : PendingOrder) (ht : t ∈ l)
    (huser : t.userId = userId) (hty : t.type = ty) :
    t.endTime ≤ newStartTime now (lastSameSideEnd userId ty l) := by
  have hmem : t ∈ l.filter (fun t => t.userId = userId ∧ t.type = ty) := by
    rw [List.mem_filter]
    exact ⟨ht, by simp [huser, hty]⟩
  obtain ⟨m, hm, hle⟩ := lastSameSideEnd_mem_le
    (l.filter (fun t => t.userId = userId ∧ t.type = ty)) none t hmem
  unfold lastSameSideEnd newStartTime
  rw [hm]
  show t.endTime ≤ if now < m then m else now
  split_ifs with h
  · exact hle
  · exact le_trans hle (not_lt.mp h)

/-- C6: (a) the new order's `startTime` is the most recent same-side
order's `endTime` when that lies in the future and `now` otherwise, with
`endTime = startTime + freezeMs`; (b) consequently, in every reachable
pending list no two same-account same-side orders have overlapping
`[startTime, endTime)` windows. -/
theorem sameSide_orders_serialized :
    (∀ (id : ℕ) (userId : String) (uid : Option ℕ) (ty : OrderType)
        (amount price cost freezeMs now : ℚ) (l : List PendingOrder),
      placeOrder id userId uid ty amount price cost freezeMs now l =
        l ++ [{ id := id, userId := userId, uid := uid, type := ty
                amount := amount, price := price, cost := cost
                startTime := newStartTime now (lastSameSideEnd userId ty l)
                endTime := newStartTime now (lastSameSideEnd userId ty l)
                  + freezeMs }]) ∧
    (∀ l, QueueReachable l → sameSideSerialized l) := by
  constructor
  · intro id userId uid ty amount price cost freezeMs now l
    rfl
  · intro l hreach
    induction hreach with
    | init => exact List.Pairwise.nil
    | place id userId uid ty amount price cost freezeMs now hf hl ih =>
      unfold placeOrder sameSideSerialized
      rw [List.pairwise_append]
      refine ⟨ih, List.pairwise_singleton _ _, ?_⟩
      intro a ha b hb huser hty
      rw [List.mem_singleton] at hb
      subst hb
      have hend : a.endTime ≤ newStartTime now (lastSameSideEnd userId ty _) :=
        endTime_le_newStartTime userId ty _ now a ha huser hty
      unfold windowsDisjoint
      calc min a.endTime _ ≤ a.endTime := min_le_left _ _
        _ ≤ _ := hend
        _ ≤ _ := le_max_right a.startTime _
    | settle now hl ih =>
      exact List.Pairwise.sublist (List.filter_sublist _) ih

/-- Witness for `sameSide_orders_serialized`: two successive buys by the
same account, the second placed while the first is still frozen. -/
theorem sameSide_orders_serialized_witness :
    sameSideSerialized
      (placeOrder 2 "alice" (some 7) OrderType.buy 10 1200 12000 7200000 60000
        (placeOrder 1 "alice" (some 7) OrderType.buy 10 1200 12000 7200000 0 [])) :=
  sameSide_orders_serialized.2 _
    (QueueReachable.place 2 "alice" (some 7) OrderType.buy 10 1200 12000 7200000
      60000 (by norm_num)
      (QueueReachable.place 1 "alice" (some 7) OrderType.buy 10 1200 12000 7200000
        0 (by norm_num) QueueReachable.init))

/-! ## The `stock.buy` (lines 2344–2455) and `stock.sell` (lines
2457–2601) commands.

`isOpen` is the `isMarketOpen()` result; the `session.user` uid checks
always succeed in this model since `uid : ℕ`; rendering of the trade
receipt is outside the model.  The share-count validation
`!amount || amount <= 0 || !Number.isInteger(amount)` is
`¬(0 < amount ∧ amount.den = 1)` over `ℚ`. -/

def stockBuy (cfg : BourseConfig) (isOpen : Bool) (currentPrice now : ℚ)
    (userId : String) (uid : ℕ) (amount : ℚ) (nextId : ℕ)
    (st : EngineState) : Bool × EngineState :=
  if ¬ (0 < amount ∧ amount.den = 1) then (false, st)
  else if ¬ isOpen then (false, st)
  else
    let cost := round2 (currentPrice * amount)
    match pay uid cost st with
    | (false, st1) => (false, st1)
    | (true, st1) =>
      let fm := freezeMinutes cfg cost
      let freezeMs := fm * 60 * 1000
      let pending1 := placeOrder nextId userId (some uid) OrderType.buy amount
        currentPrice cost freezeMs now st1.pending
      let st2 := { st1 with pending := pending1 }
      if fm = 0 then (true, processPendingTransactions now st2)
      else (true, st2)

def stockSell (cfg : BourseConfig) (isOpen : Bool) (currentPrice now : ℚ)
    (userId : String) (uid : ℕ) (amount : ℚ) (nextId : ℕ)
    (st : EngineState) : Bool × EngineState :=
  if ¬ (0 < amount ∧ amount.den = 1) then (false, st)
  else if ¬ isOpen then (false, st)
  else
    match st.holdings userId with
    | none => (false, st)
    | some h =>
      if h.amount < amount then (false, st)
      else
        let existingTotalCost :=
          if h.totalCost ≤ 0 then round2 (h.amount * currentPrice)
          else h.totalCost
        let avgCostPerShare := round2 (existingTotalCost / h.amount)
        let soldCost := round2 (avgCostPerShare * amount)
        let newAmount := h.amount - amount
        let holdings1 :=
          if newAmount = 0 then setHolding userId none st.holdings
          else
            setHolding userId
              (some { amount := newAmount
                      totalCost := max 0 (round2 (existingTotalCost - soldCost)) })
              st.holdings
        let gain := round2 (currentPrice * amount)
        let fm := freezeMinutes cfg gain
        let freezeMs := fm * 60 * 1000
        let pending1 := placeOrder nextId userId (some uid) OrderType.sell amount
          currentPrice gain freezeMs now st.pending
        let st1 := { st with holdings := holdings1, pending := pending1 }
        if fm = 0 then (true, processPendingTransactions now st1)
        else (true, st1)

/-- C8: a buy or sell request with a non-positive or non-integer share
count, and a sell request exceeding the account's holding, are rejected
with no change to holdings, pending orders or any balance (the returned
state is exactly the input state). -/
theorem rejected_orders_leave_state_unchanged (cfg : BourseConfig)
    (isOpen : Bool) (currentPrice now : ℚ) (userId : String) (uid : ℕ)
    (amount : ℚ) (nextId : ℕ) (st : EngineState) :
    (¬ (0 < amount ∧ amount.den = 1) →
      (stockBuy cfg isOpen currentPrice now userId uid amount nextId st).2 = st ∧
      (stockSell cfg isOpen currentPrice now userId uid amount nextId st).2 = st) ∧
    ((∀ h, st.holdings userId = some h → h.amount < amount) →
      (stockSell cfg isOpen currentPrice now userId uid amount nextId st).2 = st) := by
  constructor
  · intro hbad
    constructor
    · simp only [stockBuy, if_pos hbad]
    · simp only [stockSell, if_pos hbad]
  · intro hinsuf
    by_cases hbad : ¬ (0 < amount ∧ amount.den = 1)
    · simp only [stockSell, if_pos hbad]
    · simp only [stockSell, if_neg hbad]
      by_cases hopen : ¬ isOpen
      · simp only [if_pos hopen]
      · simp only [if_neg hopen]
        cases hh : st.holdings userId with
        | none => simp only []
        | some h =>
          simp only []
          rw [if_pos (hinsuf h hh)]

/-- Witness for `rejected_orders_leave_state_unchanged`: a request for
−3 shares, and a 10-share sell against a 5-share holding, both leave the
concrete state untouched. -/
theorem rejected_orders_leave_state_unchanged_witness :
    ((stockBuy ⟨1200, 100, 10, 1440⟩ true 1200 0 "alice" 7 (-3) 1
        ⟨[], fun _ => some ⟨5, 6000⟩, fun _ => none, []⟩).2 =
      ⟨[], fun _ => some ⟨5, 6000⟩, fun _ => none, []⟩ ∧
     (stockSell ⟨1200, 100, 10, 1440⟩ true 1200 0 "alice" 7 (-3) 1
        ⟨[], fun _ => some ⟨5, 6000⟩, fun _ => none, []⟩).2 =
      ⟨[], fun _ => some ⟨5, 6000⟩, fun _ => none, []⟩) ∧
    (stockSell ⟨1200, 100, 10, 1440⟩ true 1200 0 "alice" 7 10 1
        ⟨[], fun _ => some ⟨5, 6000⟩, fun _ => none, []⟩).2 =
      ⟨[], fun _ => some ⟨5, 6000⟩, fun _ => none, []⟩ := by
  constructor
  · exact (rejected_orders_leave_state_unchanged ⟨1200, 100, 10, 1440⟩ true
      1200 0 "alice" 7 (-3) 1 _).1 (by norm_num)
  · refine (rejected_orders_leave_state_unchanged ⟨1200, 100, 10, 1440⟩ true
      1200 0 "alice" 7 10 1 _).2 ?_
    intro h hh
    injection hh with hh
    rw [← hh]
    norm_num

/-! ## The K-line pattern catalog (`kLinePatterns`, lines 1685–1938).

Each shape function maps intra-pattern progress `p ∈ [0,1]` to a price
offset; `Math.sin`/`Math.PI`/`Math.floor` become `Real.sin`/`Real.pi`/
`Int.floor`, and the JavaScript remainder `x % 1` (applied to `x ≥ 0`)
is `Int.fract`.  The Chinese display `name`/`description` strings are
rendering data and are omitted. -/

open Real

inductive PatternCategory where
  | bullish
  | bearish
  | neutral
deriving DecidableEq

noncomputable def bullish_steady_fn (p : ℝ) : ℝ :=
  Real.sin (p * π / 2) * 0.8 + Real.sin (p * π * 3) * 0.08

noncomputable def bullish_v_reversal_fn (p : ℝ) : ℝ :=
  if p < 0.25 then -Real.sin (p / 0.25 * π / 2) * 0.6
  else -0.6 + (p - 0.25) / 0.75 * 1.4

noncomputable def bullish_stair_fn (p : ℝ) : ℝ :=
  let step := ⌊p * 4⌋
  let inStep := Int.fract (p * 4)
  let base := (step : ℝ) * 0.22
  let stepMove := if inStep < 0.7 then Real.sin (inStep / 0.7 * π / 2) * 0.25
    else 0.25 - (inStep - 0.7) / 0.3 * 0.08
  base + stepMove

noncomputable def bullish_late_rally_fn (p : ℝ) : ℝ :=
  if p < 0.7 then Real.sin (p / 0.7 * π * 2) * 0.15
  else (p - 0.7) / 0.3 * 0.9

noncomputable def bullish_double_bottom_fn (p : ℝ) : ℝ :=
  if p < 0.25 then -Real.sin (p / 0.25 * π / 2) * 0.5
  else if p < 0.5 then -0.5 + Real.sin ((p - 0.25) / 0.25 * π / 2) * 0.35
  else if p < 0.75 then -0.15 - Real.sin ((p - 0.5) / 0.25 * π / 2) * 0.35
  else -0.5 + (p - 0.75) / 0.25 * 1.1

noncomputable def bullish_gap_up_fn (p : ℝ) : ℝ :=
  if p < 0.1 then p / 0.1 * 0.4
  else 0.4 + Real.sin ((p - 0.1) / 0.9 * π / 2) * 0.4
    + Real.sin (p * π * 4) * 0.05

noncomputable def bullish_three_soldiers_fn (p : ℝ) : ℝ :=
  let phase := p * 3
  let segment := ⌊phase⌋
  let inSegment := Int.fract phase
  if segment = 0 then Real.sin (inSegment * π / 2) * 0.3
  else if segment = 1 then 0.3 + Real.sin (inSegment * π / 2) * 0.28
  else 0.58 + Real.sin (inSegment * π / 2) * 0.25

noncomputable def bullish_morning_dip_fn (p : ℝ) : ℝ :=
  if p < 0.2 then -Real.sin (p / 0.2 * π / 2) * 0.3
  else -0.3 + (p - 0.2) / 0.8 * 1.1

noncomputable def bearish_steady_fn (p : ℝ) : ℝ :=
  -Real.sin (p * π / 2) * 0.8 + Real.sin (p * π * 3) * 0.08

noncomputable def bearish_inverted_v_fn (p : ℝ) : ℝ :=
  if p < 0.35 then Real.sin (p / 0.35 * π / 2) * 0.5
  else 0.5 - (p - 0.35) / 0.65 * 1.3

noncomputable def bearish_stair_fn (p : ℝ) : ℝ :=
  let step := ⌊p * 4⌋
  let inStep := Int.fract (p * 4)
  let base := -(step : ℝ) * 0.22
  let stepMove := if inStep < 0.7 then -Real.sin (inStep / 0.7 * π / 2) * 0.25
    else -0.25 + (inStep - 0.7) / 0.3 * 0.08
  base + stepMove

noncomputable def bearish_late_dive_fn (p : ℝ) : ℝ :=
  if p < 0.7 then Real.sin (p / 0.7 * π / 2) * 0.25
  else 0.25 - (p - 0.7) / 0.3 * 1.15

noncomputable def bearish_double_top_fn (p : ℝ) : ℝ :=
  if p < 0.25 then Real.sin (p / 0.25 * π / 2) * 0.5
  else if p < 0.5 then 0.5 - Real.sin ((p - 0.25) / 0.25 * π / 2) * 0.35
  else if p < 0.75 then 0.15 + Real.sin ((p - 0.5) / 0.25 * π / 2) * 0.35
  else 0.5 - (p - 0.75) / 0.25 * 1.1

noncomputable def bearish_gap_down_fn (p : ℝ) : ℝ :=
  if p < 0.1 then -p / 0.1 * 0.4
  else -0.4 - Real.sin ((p - 0.1) / 0.9 * π / 2) * 0.4
    + Real.sin (p * π * 4) * 0.05

noncomputable def bearish_three_crows_fn (p : ℝ) : ℝ :=
  let phase := p * 3
  let segment := ⌊phase⌋
  let inSegment := Int.fract phase
  if segment = 0 then -Real.sin (inSegment * π / 2) * 0.3
  else if segment = 1 then -0.3 - Real.sin (inSegment * π / 2) * 0.28
  else -0.58 - Real.sin (inSegment * π / 2) * 0.25

noncomputable def bearish_morning_bounce_fn (p : ℝ) : ℝ :=
  if p < 0.2 then Real.sin (p / 0.2 * π / 2) * 0.3
  else 0.3 - (p - 0.2) / 0.8 * 1.1

noncomputable def neutral_consolidation_fn (p : ℝ) : ℝ :=
  Real.sin (p * π * 4) * 0.25 + Real.sin (p * π * 7) * 0.1

noncomputable def neutral_wide_range_fn (p : ℝ) : ℝ :=
  Real.sin (p * π * 2) * 0.5 + Real.sin (p * π * 5) * 0.15

noncomputable def neutral_converging_fn (p : ℝ) : ℝ :=
  Real.sin (p * π * 6) * 0.4 * (1 - p)

noncomputable def neutral_diverging_fn (p : ℝ) : ℝ :=
  Real.sin (p * π * 6) * 0.15 * (1 + p * 2)

noncomputable def neutral_box_fn (p : ℝ) : ℝ :=
  let cycles : ℝ := 3
  let phase := Int.fract (p * cycles)
  if phase < 0.25 then phase / 0.25 * 0.35
  else if phase < 0.75 then 0.35 - (phase - 0.25) / 0.5 * 0.7
  else -0.35 + (phase - 0.75) / 0.25 * 0.35

noncomputable def neutral_up_down_fn (p : ℝ) : ℝ :=
  if p < 0.5 then Real.sin (p / 0.5 * π / 2) * 0.5
  else 0.5 - (p - 0.5) / 0.5 * 0.5

noncomputable def neutral_down_up_fn (p : ℝ) : ℝ :=
  if p < 0.5 then -Real.sin (p / 0.5 * π / 2) * 0.5
  else -0.5 + (p - 0.5) / 0.5 * 0.5

noncomputable def neutral_slight_up_fn (p : ℝ) : ℝ :=
  p * 0.15 + Real.sin (p * π * 5) * 0.12

noncomputable def neutral_slight_down_fn (p : ℝ) : ℝ :=
  -p * 0.15 + Real.sin (p * π * 5) * 0.12

structure KLinePattern where
  fn : ℝ → ℝ
  category : PatternCategory
  endBias : ℝ

/-- The fixed catalog: 8 bullish, 8 bearish and 9 neutral patterns, keyed
by the source's record keys, in source order. -/
noncomputable def kLinePatterns : List (String × KLinePattern) :=
  [ ("bullish_steady", ⟨bullish_steady_fn, PatternCategory.bullish, 0.8⟩),
    ("bullish_v_reversal", ⟨bullish_v_reversal_fn, PatternCategory.bullish, 0.8⟩),
    ("bullish_stair", ⟨bullish_stair_fn, PatternCategory.bullish, 0.72⟩),
    ("bullish_late_rally", ⟨bullish_late_rally_fn, PatternCategory.bullish, 0.9⟩),
    ("bullish_double_bottom", ⟨bullish_double_bottom_fn, PatternCategory.bullish, 0.6⟩),
    ("bullish_gap_up", ⟨bullish_gap_up_fn, PatternCategory.bullish, 0.8⟩),
    ("bullish_three_soldiers", ⟨bullish_three_soldiers_fn, PatternCategory.bullish, 0.75⟩),
    ("bullish_morning_dip", ⟨bullish_morning_dip_fn, PatternCategory.bullish, 0.8⟩),
    ("bearish_steady", ⟨bearish_steady_fn, PatternCategory.bearish, -0.8⟩),
    ("bearish_inverted_v", ⟨bearish_inverted_v_fn, PatternCategory.bearish, -0.8⟩),
    ("bearish_stair", ⟨bearish_stair_fn, PatternCategory.bearish, -0.72⟩),
    ("bearish_late_dive", ⟨bearish_late_dive_fn, PatternCategory.bearish, -0.9⟩),
    ("bearish_double_top", ⟨bearish_double_top_fn, PatternCategory.bearish, -0.6⟩),
    ("bearish_gap_down", ⟨bearish_gap_down_fn, PatternCategory.bearish, -0.8⟩),
    ("bearish_three_crows", ⟨bearish_three_crows_fn, PatternCategory.bearish, -0.75⟩),
    ("bearish_morning_bounce", ⟨bearish_morning_bounce_fn, PatternCategory.bearish, -0.8⟩),
    ("neutral_consolidation", ⟨neutral_consolidation_fn, PatternCategory.neutral, 0⟩),
    ("neutral_wide_range", ⟨neutral_wide_range_fn, PatternCategory.neutral, 0⟩),
    ("neutral_converging", ⟨neutral_converging_fn, PatternCategory.neutral, 0⟩),
    ("neutral_diverging", ⟨neutral_diverging_fn, PatternCategory.neutral, 0⟩),
    ("neutral_box", ⟨neutral_box_fn, PatternCategory.neutral, 0⟩),
    ("neutral_up_down", ⟨neutral_up_down_fn, PatternCategory.neutral, 0⟩),
    ("neutral_down_up", ⟨neutral_down_up_fn, PatternCategory.neutral, 0⟩),
    ("neutral_slight_up", ⟨neutral_slight_up_fn, PatternCategory.neutral, 0.15⟩),
    ("neutral_slight_down", ⟨neutral_slight_down_fn, PatternCategory.neutral, -0.15⟩) ]

open Topology Filter

theorem sin_pi_mul_two : Real.sin (π * 2) = 0 := by
  rw [mul_comm]; exact_mod_cast Real.sin_nat_mul_pi 2

theorem sin_pi_mul_three : Real.sin (π * 3) = 0 := by
  rw [mul_comm]; exact_mod_cast Real.sin_nat_mul_pi 3

theorem sin_pi_mul_four : Real.sin (π * 4) = 0 := by
  rw [mul_comm]; exact_mod_cast Real.sin_nat_mul_pi 4

theorem sin_pi_mul_five : Real.sin (π * 5) = 0 := by
  rw [mul_comm]; exact_mod_cast Real.sin_nat_mul_pi 5

theorem sin_pi_mul_six : Real.sin (π * 6) = 0 := by
  rw [mul_comm]; exact_mod_cast Real.sin_nat_mul_pi 6

theorem sin_pi_mul_seven : Real.sin (π * 7) = 0 := by
  rw [mul_comm]; exact_mod_cast Real.sin_nat_mul_pi 7

/-- C9, amended: the catalog has exactly 25 entries — 8 bullish, 8 bearish
and 9 neutral — and every pattern's shape function has `f(0)` and `f(1)`
within `[-1.2, 1.2]`; but not every pattern is continuous on `[0, 1]`
(the gap patterns jump by construction, see the counterexample). -/
theorem kLinePatterns_catalog :
    kLinePatterns.length = 25 ∧
    (kLinePatterns.filter
      (fun e => e.2.category = PatternCategory.bullish)).length = 8 ∧
    (kLinePatterns.filter
      (fun e => e.2.category = PatternCategory.bearish)).length = 8 ∧
    (kLinePatterns.filter
      (fun e => e.2.category = PatternCategory.neutral)).length = 9 ∧
    ∀ e ∈ kLinePatterns,
      (-1.2 ≤ e.2.fn 0 ∧ e.2.fn 0 ≤ 1.2) ∧
      (-1.2 ≤ e.2.fn 1 ∧ e.2.fn 1 ≤ 1.2) := by
  refine ⟨rfl, rfl, rfl, rfl, ?_⟩
  intro e he
  fin_cases he <;>
    exact ⟨by constructor <;>
        norm_num [bullish_steady_fn, bullish_v_reversal_fn, bullish_stair_fn,
          bullish_late_rally_fn, bullish_double_bottom_fn, bullish_gap_up_fn,
          bullish_three_soldiers_fn, bullish_morning_dip_fn, bearish_steady_fn,
          bearish_inverted_v_fn, bearish_stair_fn, bearish_late_dive_fn,
          bearish_double_top_fn, bearish_gap_down_fn, bearish_three_crows_fn,
          bearish_morning_bounce_fn, neutral_consolidation_fn,
          neutral_wide_range_fn, neutral_converging_fn, neutral_diverging_fn,
          neutral_box_fn, neutral_up_down_fn, neutral_down_up_fn,
          neutral_slight_up_fn, neutral_slight_down_fn, Int.fract,
          sin_pi_mul_two, sin_pi_mul_three, sin_pi_mul_four, sin_pi_mul_five,
          sin_pi_mul_six, sin_pi_mul_seven],
      by constructor <;>
        norm_num [bullish_steady_fn, bullish_v_reversal_fn, bullish_stair_fn,
          bullish_late_rally_fn, bullish_double_bottom_fn, bullish_gap_up_fn,
          bullish_three_soldiers_fn, bullish_morning_dip_fn, bearish_steady_fn,
          bearish_inverted_v_fn, bearish_stair_fn, bearish_late_dive_fn,
          bearish_double_top_fn, bearish_gap_down_fn, bearish_three_crows_fn,
          bearish_morning_bounce_fn, neutral_consolidation_fn,
          neutral_wide_range_fn, neutral_converging_fn, neutral_diverging_fn,
          neutral_box_fn, neutral_up_down_fn, neutral_down_up_fn,
          neutral_slight_up_fn, neutral_slight_down_fn, Int.fract,
          sin_pi_mul_two, sin_pi_mul_three, sin_pi_mul_four, sin_pi_mul_five,
          sin_pi_mul_six, sin_pi_mul_seven]⟩

/-- C9, counterexample: not every pattern function is continuous on
`[0,1]`.  The catalog entry `bullish_gap_up` (跳空高开, "gap up") jumps at
`p = 0.1` by construction: the left limit is `0.4` while
`f(0.1) = 0.4 + sin(0.4π)·0.05 > 0.4`. -/
theorem bullish_gap_up_discontinuous :
    ("bullish_gap_up",
      (⟨bullish_gap_up_fn, PatternCategory.bullish, 0.8⟩ : KLinePattern)) ∈
        kLinePatterns ∧
    ¬ ContinuousOn bullish_gap_up_fn (Set.Icc 0 1) := by
  constructor
  · simp [kLinePatterns]
  intro h
  have hc : ContinuousWithinAt bullish_gap_up_fn (Set.Icc 0 1) 0.1 :=
    h 0.1 (by constructor <;> norm_num)
  have hsub : (𝓝[Set.Ioo (0:ℝ) 0.1] (0.1:ℝ)) ≤ 𝓝[Set.Icc (0:ℝ) 1] 0.1 := by
    apply nhdsWithin_mono
    intro x hx
    exact ⟨hx.1.le, by linarith [hx.2]⟩
  have ht : Filter.Tendsto bullish_gap_up_fn (𝓝[Set.Ioo (0:ℝ) 0.1] 0.1)
      (𝓝 (bullish_gap_up_fn 0.1)) := hc.mono_left hsub
  have heq : ∀ p ∈ Set.Ioo (0:ℝ) 0.1, bullish_gap_up_fn p = p / 0.1 * 0.4 := by
    intro p hp
    simp only [bullish_gap_up_fn, if_pos hp.2]
  have hev : bullish_gap_up_fn =ᶠ[𝓝[Set.Ioo (0:ℝ) 0.1] (0.1:ℝ)]
      (fun p => p / 0.1 * 0.4) :=
    Filter.eventuallyEq_of_mem self_mem_nhdsWithin heq
  have ht2 : Filter.Tendsto (fun p : ℝ => p / 0.1 * 0.4)
      (𝓝[Set.Ioo (0:ℝ) 0.1] 0.1) (𝓝 (bullish_gap_up_fn 0.1)) :=
    ht.congr' hev
  have hlin : Filter.Tendsto (fun p : ℝ => p / 0.1 * 0.4)
      (𝓝[Set.Ioo (0:ℝ) 0.1] 0.1) (𝓝 0.4) := by
    have hcont : Filter.Tendsto (fun p : ℝ => p / 0.1 * 0.4) (𝓝 0.1)
        (𝓝 ((0.1 : ℝ) / 0.1 * 0.4)) :=
      Continuous.tendsto (by continuity) 0.1
    have hv : ((0.1 : ℝ) / 0.1 * 0.4) = 0.4 := by norm_num
    rw [hv] at hcont
    exact hcont.mono_left nhdsWithin_le_nhds
  haveI hne : (𝓝[Set.Ioo (0:ℝ) 0.1] (0.1:ℝ)).NeBot := by
    rw [← mem_closure_iff_nhdsWithin_neBot,
      closure_Ioo (by norm_num : (0:ℝ) ≠ 0.1)]
    constructor <;> norm_num
  have huniq : bullish_gap_up_fn 0.1 = 0.4 := tendsto_nhds_unique ht2 hlin
  have hf : bullish_gap_up_fn 0.1 = 0.4 + Real.sin (0.1 * π * 4) * 0.05 := by
    norm_num [bullish_gap_up_fn]
  have hpos : 0 < Real.sin (0.1 * π * 4) := by
    have h1 : (0:ℝ) < 0.1 * π * 4 := by nlinarith [Real.pi_pos]
    have h2 : 0.1 * π * 4 < π := by nlinarith [Real.pi_pos]
    exact Real.sin_pos_of_pos_of_lt_pi h1 h2
  rw [huniq] at hf
  nlinarith [hf, hpos]

/-- Witness for `processPendingTransactions_idempotent`: a queue with one
matured buy and one still-frozen sell. -/
theorem processPendingTransactions_idempotent_witness :
    (∀ t ∈ (processPendingTransactions 100
        ⟨[⟨1, "alice", some 7, OrderType.buy, 10, 1200, 12000, 0, 100⟩,
          ⟨2, "alice", some 7, OrderType.sell, 5, 1200, 6000, 100, 900⟩],
          fun _ => none, fun _ => none, []⟩).pending, ¬ t.endTime ≤ 100) ∧
    processPendingTransactions 100 (processPendingTransactions 100
        ⟨[⟨1, "alice", some 7, OrderType.buy, 10, 1200, 12000, 0, 100⟩,
          ⟨2, "alice", some 7, OrderType.sell, 5, 1200, 6000, 100, 900⟩],
          fun _ => none, fun _ => none, []⟩) =
      processPendingTransactions 100
        ⟨[⟨1, "alice", some 7, OrderType.buy, 10, 1200, 12000, 0, 100⟩,
          ⟨2, "alice", some 7, OrderType.sell, 5, 1200, 6000, 100, 900⟩],
          fun _ => none, fun _ => none, []⟩ :=
  processPendingTransactions_idempotent 100
    ⟨[⟨1, "alice", some 7, OrderType.buy, 10, 1200, 12000, 0, 100⟩,
      ⟨2, "alice", some 7, OrderType.sell, 5, 1200, 6000, 100, 900⟩],
      fun _ => none, fun _ => none, []⟩

/-- Witness for `kLinePatterns_catalog`: the endpoint bounds at the first
catalog entry. -/
theorem kLinePatterns_catalog_witness :
    kLinePatterns.length = 25 ∧
    ((-1.2 ≤ (("bullish_steady",
        (⟨bullish_steady_fn, PatternCategory.bullish, 0.8⟩ : KLinePattern))).2.fn 0 ∧
      (("bullish_steady",
        (⟨bullish_steady_fn, PatternCategory.bullish, 0.8⟩ : KLinePattern))).2.fn 0 ≤ 1.2) ∧
     (-1.2 ≤ (("bullish_steady",
        (⟨bullish_steady_fn, PatternCategory.bullish, 0.8⟩ : KLinePattern))).2.fn 1 ∧
      (("bullish_steady",
        (⟨bullish_steady_fn, PatternCategory.bullish, 0.8⟩ : KLinePattern))).2.fn 1 ≤ 1.2)) :=
  ⟨kLinePatterns_catalog.1,
    kLinePatterns_catalog.2.2.2.2 _ (by simp [kLinePatterns])⟩
